import Mathlib

/-!
Verification of the geospatial annotation tool's two core components:
the JSON document store (`app/lib/data.ts` plus the `/api/substations` and
`/api/polygons` route handlers) and the tile resolver
(`app/api/tiles/[...all]/route.ts`), together with the client-side
save-polygon validation (`handleSavePolygon`).

Modelling conventions:
* JSON numbers are modelled as integers (`Int`).  The JavaScript engine
  represents them as IEEE doubles; all integer values the routes manipulate
  are far below 2^53, where double arithmetic is exact.
* File contents are `String`s; filesystem state is explicit and passed to
  each operation.
* JavaScript's 32-bit `<<` operator and `parseInt` are modelled faithfully
  (`jsShl32`, `jsParseInt`).
-/

namespace Spec2Proof

/-- JSON values, as produced by `JSON.parse` / consumed by `JSON.stringify`.
Numbers are restricted to integers (see module comment). -/
inductive Json where
  | null : Json
  | bool (b : Bool) : Json
  | num (n : Int) : Json
  | str (s : String) : Json
  | arr (xs : List Json) : Json
  | obj (kvs : List (String × Json)) : Json
  deriving Repr

/-- Lower-case hexadecimal digit, as emitted by `JSON.stringify` in
`\u00XX` escapes. -/
def hexDig (n : Nat) : Char :=
  if n < 10 then Char.ofNat (48 + n) else Char.ofNat (87 + n)

/-- Escape one character the way `JSON.stringify` quotes strings. -/
def escChar (c : Char) : List Char :=
  if c = '"' then ['\\', '"']
  else if c = '\\' then ['\\', '\\']
  else if c = '\x08' then ['\\', 'b']
  else if c = '\x0c' then ['\\', 'f']
  else if c = '\n' then ['\\', 'n']
  else if c = '\x0d' then ['\\', 'r']
  else if c = '\t' then ['\\', 't']
  else if c.toNat < 32 then
    ['\\', 'u', '0', '0', hexDig (c.toNat / 16), hexDig (c.toNat % 16)]
  else [c]

def escList : List Char → List Char
  | [] => []
  | c :: cs => escChar c ++ escList cs

/-- Decimal digits of `n`, most significant first (fuelled helper). -/
def natDigsF : Nat → Nat → List Char
  | 0, _ => []
  | fuel + 1, n =>
    if n < 10 then [Char.ofNat (48 + n)]
    else natDigsF fuel (n / 10) ++ [Char.ofNat (48 + n % 10)]

def natDigs (n : Nat) : List Char := natDigsF (n + 1) n

/-- Decimal rendering of an integer, as `String(n)` in JavaScript prints an
integral double. -/
def intDigs (n : Int) : List Char :=
  if n < 0 then '-' :: natDigs ((-n).toNat) else natDigs n.toNat

/-- `"\n"` followed by `2*d` spaces: the separator `JSON.stringify(v, null, 2)`
inserts at nesting depth `d`. -/
def nlIndent (d : Nat) : List Char := '\n' :: List.replicate (2 * d) ' '

mutual
/-- Characters of `JSON.stringify(v, null, 2)` at nesting depth `d`. -/
def emit : Nat → Json → List Char
  | _, .null => ['n', 'u', 'l', 'l']
  | _, .bool true => ['t', 'r', 'u', 'e']
  | _, .bool false => ['f', 'a', 'l', 's', 'e']
  | _, .num n => intDigs n
  | _, .str s => '"' :: (escList s.data ++ ['"'])
  | _, .arr [] => ['[', ']']
  | d, .arr (x :: xs) =>
    '[' :: (nlIndent (d + 1) ++ emit (d + 1) x ++ emitItems (d + 1) xs
      ++ nlIndent d ++ [']'])
  | _, .obj [] => ['\x7b', '\x7d']
  | d, .obj (kv :: kvs) =>
    '\x7b' :: (nlIndent (d + 1) ++ emitMember (d + 1) kv
      ++ emitMembers (d + 1) kvs ++ nlIndent d ++ ['\x7d'])

/-- Remaining array items: each preceded by a comma and a fresh line. -/
def emitItems : Nat → List Json → List Char
  | _, [] => []
  | d, x :: xs => ',' :: (nlIndent d ++ emit d x ++ emitItems d xs)

/-- One `"key": value` member. -/
def emitMember : Nat → String × Json → List Char
  | d, (k, v) => '"' :: (escList k.data ++ ['"', ':', ' '] ++ emit d v)

/-- Remaining object members: each preceded by a comma and a fresh line. -/
def emitMembers : Nat → List (String × Json) → List Char
  | _, [] => []
  | d, kv :: kvs => ',' :: (nlIndent d ++ emitMember d kv ++ emitMembers d kvs)
end

/-- `JSON.stringify(v, null, 2)`, the serialization used by
`writeSubstations` / `writeComponentPolygons` in `app/lib/data.ts`. -/
def stringify2 (v : Json) : String := String.mk (emit 0 v)

/-- JSON whitespace accepted by `JSON.parse`. -/
def isJsonWs (c : Char) : Bool :=
  c = ' ' || c = '\n' || c = '\t' || c = '\x0d'

def skipWs : List Char → List Char
  | [] => []
  | c :: cs => if isJsonWs c then skipWs cs else c :: cs

/-- Value of a lower/upper-case hexadecimal digit. -/
def hexVal (c : Char) : Option Nat :=
  if 48 ≤ c.toNat ∧ c.toNat ≤ 57 then some (c.toNat - 48)
  else if 97 ≤ c.toNat ∧ c.toNat ≤ 102 then some (c.toNat - 87)
  else if 65 ≤ c.toNat ∧ c.toNat ≤ 70 then some (c.toNat - 55)
  else none

/-- Decoded character of a single-character escape sequence `\e`. -/
def escCode (e : Char) : Option Char :=
  if e = '"' then some '"'
  else if e = '\\' then some '\\'
  else if e = '/' then some '/'
  else if e = 'b' then some '\x08'
  else if e = 'f' then some '\x0c'
  else if e = 'n' then some '\n'
  else if e = 'r' then some '\x0d'
  else if e = 't' then some '\t'
  else none

/-- Value of the four hex digits of a `\uXXXX` escape. -/
def hex4 (a b c d : Char) : Option Nat :=
  match hexVal a, hexVal b, hexVal c, hexVal d with
  | some va, some vb, some vc, some vd =>
    some (((va * 16 + vb) * 16 + vc) * 16 + vd)
  | _, _, _, _ => none

/-- Body of a JSON string literal after the opening quote: returns the decoded
characters and the input after the closing quote. -/
def parseStrBody : List Char → Option (List Char × List Char)
  | [] => none
  | c :: rest =>
    if c = '"' then some ([], rest)
    else if c = '\\' then
      match rest with
      | [] => none
      | e :: r =>
        if e = 'u' then
          match r with
          | h1 :: h2 :: h3 :: h4 :: r2 =>
            match hex4 h1 h2 h3 h4 with
            | some n =>
              (parseStrBody r2).map (fun p => (Char.ofNat n :: p.1, p.2))
            | none => none
          | _ => none
        else
          match escCode e with
          | some ch => (parseStrBody r).map (fun p => (ch :: p.1, p.2))
          | none => none
    else if c.toNat < 32 then none
    else (parseStrBody rest).map (fun p => (c :: p.1, p.2))
termination_by structural input => input

/-- Leading run of decimal digits, folded into `acc`. -/
def parseDigits : List Char → Nat → Nat × List Char
  | [], acc => (acc, [])
  | c :: cs, acc =>
    if c.isDigit then parseDigits cs (10 * acc + (c.toNat - 48))
    else (acc, c :: cs)

mutual
/-- Fuelled model of `JSON.parse`'s value grammar: returns the parsed value
and the unconsumed input (whitespace before the value is skipped; whitespace
after it is left in place).  Restrictions relative to full JSON: number
literals are integers (no fraction/exponent), and duplicate object keys are
kept in order rather than last-wins. -/
def parseVal : Nat → List Char → Option (Json × List Char)
  | 0, _ => none
  | fuel + 1, input =>
    match skipWs input with
    | [] => none
    | c :: r =>
      if c = 'n' then
        match r with
        | 'u' :: 'l' :: 'l' :: r2 => some (.null, r2)
        | _ => none
      else if c = 't' then
        match r with
        | 'r' :: 'u' :: 'e' :: r2 => some (.bool true, r2)
        | _ => none
      else if c = 'f' then
        match r with
        | 'a' :: 'l' :: 's' :: 'e' :: r2 => some (.bool false, r2)
        | _ => none
      else if c = '"' then
        (parseStrBody r).map (fun p => (.str (String.mk p.1), p.2))
      else if c = '[' then
        let r2 := skipWs r
        if r2.head? = some ']' then some (.arr [], r2.tail)
        else (parseItems fuel r2).map (fun p => (.arr p.1, p.2))
      else if c = '\x7b' then
        let r2 := skipWs r
        if r2.head? = some '\x7d' then some (.obj [], r2.tail)
        else (parseMembers fuel r2).map (fun p => (.obj p.1, p.2))
      else if c = '-' then
        match r with
        | c2 :: r2 =>
          if c2.isDigit then
            let p := parseDigits r2 (c2.toNat - 48)
            some (.num (-(p.1 : Int)), p.2)
          else none
        | [] => none
      else if c.isDigit then
        let p := parseDigits r (c.toNat - 48)
        some (.num ((p.1 : Nat) : Int), p.2)
      else none

/-- One or more comma-separated array items followed by `]`. -/
def parseItems : Nat → List Char → Option (List Json × List Char)
  | 0, _ => none
  | fuel + 1, input =>
    (parseVal fuel input).bind (fun p =>
      match skipWs p.2 with
      | ',' :: r => (parseItems fuel r).map (fun q => (p.1 :: q.1, q.2))
      | ']' :: r => some ([p.1], r)
      | _ => none)

/-- One or more comma-separated `"key": value` members followed by the
closing brace. -/
def parseMembers : Nat → List Char → Option (List (String × Json) × List Char)
  | 0, _ => none
  | fuel + 1, input =>
    match skipWs input with
    | '"' :: r =>
      (parseStrBody r).bind (fun kp =>
        match skipWs kp.2 with
        | ':' :: r2 =>
          (parseVal fuel r2).bind (fun vp =>
            match skipWs vp.2 with
            | ',' :: r3 =>
              (parseMembers fuel r3).map
                (fun q => ((String.mk kp.1, vp.1) :: q.1, q.2))
            | '\x7d' :: r3 => some ([(String.mk kp.1, vp.1)], r3)
            | _ => none)
        | _ => none)
    | _ => none
end

/-- Model of `JSON.parse`: parse one value and require only whitespace after
it.  `none` models the thrown `SyntaxError`. -/
def parseJson (s : String) : Option Json :=
  match parseVal (s.data.length + 1) s.data with
  | some (v, rest) =>
    match skipWs rest with
    | [] => some v
    | _ => none
  | none => none

mutual
/-- Fuel needed by `parseVal` to parse an emitted value. -/
def sizeJ : Json → Nat
  | .null | .bool _ | .num _ | .str _ => 1
  | .arr xs => 1 + sizeItemsJ xs
  | .obj kvs => 1 + sizeMembersJ kvs

def sizeItemsJ : List Json → Nat
  | [] => 1
  | x :: xs => sizeJ x + sizeItemsJ xs

def sizeMembersJ : List (String × Json) → Nat
  | [] => 1
  | kv :: kvs => sizeJ kv.2 + sizeMembersJ kvs
end

/-! ### The parser inverts the emitter -/

theorem charNe {c d : Char} (h : c.toNat ≠ d.toNat) : c ≠ d :=
  fun e => h (by rw [e])

theorem char_ofNat_toNat (c : Char) : Char.ofNat c.toNat = c := by
  apply Char.ext
  have h := c.valid
  unfold Char.ofNat
  split
  · rfl
  · next hn => exact absurd (by simpa [Char.toNat] using h) hn

theorem skipWs_cons_not {c : Char} (t : List Char) (h : isJsonWs c = false) :
    skipWs (c :: t) = c :: t := by
  simp [skipWs, h]

theorem skipWs_ws_append (pre t : List Char)
    (h : ∀ c ∈ pre, isJsonWs c = true) : skipWs (pre ++ t) = skipWs t := by
  induction pre with
  | nil => rfl
  | cons c cs ih =>
    simp only [List.cons_append, skipWs, h c (List.mem_cons_self c cs), if_pos]
    exact ih (fun d hd => h d (List.mem_cons_of_mem c hd))

theorem nlIndent_ws (d : Nat) : ∀ c ∈ nlIndent d, isJsonWs c = true := by
  intro c hc
  simp only [nlIndent, List.mem_cons, List.mem_replicate] at hc
  rcases hc with h | h
  · simp [h, isJsonWs]
  · simp [h.2, isJsonWs]

/-- Characters that can begin an emitted JSON value. -/
def startTok (c : Char) : Prop :=
  c.toNat = 110 ∨ c.toNat = 116 ∨ c.toNat = 102 ∨ c.toNat = 34 ∨
  c.toNat = 91 ∨ c.toNat = 123 ∨ c.toNat = 45 ∨
  (48 ≤ c.toNat ∧ c.toNat ≤ 57)

theorem startTok_not_ws {c : Char} (h : startTok c) : isJsonWs c = false := by
  simp only [isJsonWs, Bool.or_eq_false_iff, decide_eq_false_iff_not]
  refine ⟨⟨⟨charNe ?_, charNe ?_⟩, charNe ?_⟩, charNe ?_⟩ <;>
    simp only [show (' ' : Char).toNat = 32 from rfl,
      show ('\n' : Char).toNat = 10 from rfl,
      show ('\t' : Char).toNat = 9 from rfl,
      show ('\x0d' : Char).toNat = 13 from rfl] <;>
    rcases h with h | h | h | h | h | h | h | h <;> omega

theorem startTok_ne_rbracket {c : Char} (h : startTok c) : c ≠ ']' := by
  refine charNe ?_
  simp only [show (']' : Char).toNat = 93 from rfl]
  rcases h with h | h | h | h | h | h | h | h <;> omega

theorem startTok_ne_rbrace {c : Char} (h : startTok c) : c ≠ '\x7d' := by
  refine charNe ?_
  simp only [show ('\x7d' : Char).toNat = 125 from rfl]
  rcases h with h | h | h | h | h | h | h | h <;> omega

theorem digitChar_toNat {n : Nat} (h : n < 10) :
    (Char.ofNat (48 + n)).toNat = 48 + n := by
  have : ∀ m, m < 10 → (Char.ofNat (48 + m)).toNat = 48 + m := by decide
  exact this n h

theorem digitChar_isDigit {n : Nat} (h : n < 10) :
    (Char.ofNat (48 + n)).isDigit = true := by
  have : ∀ m, m < 10 → (Char.ofNat (48 + m)).isDigit = true := by decide
  exact this n h

theorem natDigsF_head (fuel n : Nat) :
    ∃ c cs, natDigsF (fuel + 1) n = c :: cs ∧ c.isDigit = true ∧
      48 ≤ c.toNat ∧ c.toNat ≤ 57 := by
  induction fuel generalizing n with
  | zero =>
    by_cases h : n < 10
    · refine ⟨Char.ofNat (48 + n), [], by simp [natDigsF, h], ?_⟩
      rw [digitChar_toNat h]
      exact ⟨digitChar_isDigit h, by omega, by omega⟩
    · refine ⟨Char.ofNat (48 + n % 10), [], by simp [natDigsF, h], ?_⟩
      have hm : n % 10 < 10 := Nat.mod_lt n (by omega)
      rw [digitChar_toNat hm]
      exact ⟨digitChar_isDigit hm, by omega, by omega⟩
  | succ fuel ih =>
    by_cases h : n < 10
    · refine ⟨Char.ofNat (48 + n), [], by simp [natDigsF, h], ?_⟩
      rw [digitChar_toNat h]
      exact ⟨digitChar_isDigit h, by omega, by omega⟩
    · obtain ⟨c, cs, hEq, hDig, h1, h2⟩ := ih (n / 10)
      have step : natDigsF (fuel + 1 + 1) n =
          if n < 10 then [Char.ofNat (48 + n)]
          else natDigsF (fuel + 1) (n / 10) ++ [Char.ofNat (48 + n % 10)] := rfl
      exact ⟨c, cs ++ [Char.ofNat (48 + n % 10)],
        by rw [step, if_neg h, hEq]; rfl, hDig, h1, h2⟩

theorem natDigs_head (n : Nat) :
    ∃ c cs, natDigs n = c :: cs ∧ c.isDigit = true ∧
      48 ≤ c.toNat ∧ c.toNat ≤ 57 :=
  natDigsF_head n n

theorem natDigsF_digits (fuel : Nat) :
    ∀ n c, c ∈ natDigsF fuel n → c.isDigit = true := by
  induction fuel with
  | zero => intro n c hc; simp [natDigsF] at hc
  | succ fuel ih =>
    intro n c hc
    by_cases h : n < 10
    · simp [natDigsF, h] at hc
      rw [hc]
      exact digitChar_isDigit h
    · simp [natDigsF, h] at hc
      rcases hc with hc | hc
      · exact ih _ _ hc
      · rw [hc]
        exact digitChar_isDigit (Nat.mod_lt n (by omega))

/-- The first character of `rest` is not a decimal digit (so a number literal
preceding `rest` parses without absorbing part of `rest`). -/
def headNd : List Char → Prop
  | [] => True
  | c :: _ => c.isDigit = false

theorem parseDigits_noDigit (rest : List Char) (acc : Nat) (h : headNd rest) :
    parseDigits rest acc = (acc, rest) := by
  cases rest with
  | nil => rfl
  | cons c t =>
    simp only [headNd] at h
    simp [parseDigits, h]

theorem parseDigits_digits_append :
    ∀ ds rest acc, (∀ c ∈ ds, c.isDigit = true) → headNd rest →
      parseDigits (ds ++ rest) acc =
        (ds.foldl (fun a c => 10 * a + (c.toNat - 48)) acc, rest) := by
  intro ds
  induction ds with
  | nil =>
    intro rest acc _ h
    simp [parseDigits_noDigit rest acc h]
  | cons c t ih =>
    intro rest acc hd h
    simp only [List.cons_append, parseDigits, hd c (List.mem_cons_self c t),
      if_pos, List.foldl_cons]
    exact ih rest _ (fun d hdm => hd d (List.mem_cons_of_mem c hdm)) h

theorem foldl_natDigsF (fuel : Nat) :
    ∀ n acc, n < 10 ^ fuel →
      (natDigsF fuel n).foldl (fun a c => 10 * a + (c.toNat - 48)) acc =
        acc * 10 ^ (natDigsF fuel n).length + n := by
  induction fuel with
  | zero =>
    intro n acc h
    interval_cases n
    simp [natDigsF]
  | succ fuel ih =>
    intro n acc h
    by_cases hn : n < 10
    · simp [natDigsF, hn, List.foldl, digitChar_toNat hn]
      omega
    · have hlt : n / 10 < 10 ^ fuel := by
        rw [Nat.div_lt_iff_lt_mul (by omega)]
        calc n < 10 ^ (fuel + 1) := h
          _ = 10 ^ fuel * 10 := by ring
      have hmod : n % 10 < 10 := Nat.mod_lt n (by omega)
      have step : natDigsF (fuel + 1) n =
          natDigsF fuel (n / 10) ++ [Char.ofNat (48 + n % 10)] := by
        show (if n < 10 then _ else _) = _
        rw [if_neg hn]
      rw [step, List.foldl_append, ih _ _ hlt, List.length_append]
      simp only [List.foldl_cons, List.foldl_nil, List.length_cons,
        List.length_nil, digitChar_toNat hmod]
      have hdm := Nat.div_add_mod n 10
      rw [show (natDigsF fuel (n / 10)).length + (0 + 1) =
        (natDigsF fuel (n / 10)).length + 1 from by omega, pow_succ]
      rw [show acc * (10 ^ (natDigsF fuel (n / 10)).length * 10) =
        acc * 10 ^ (natDigsF fuel (n / 10)).length * 10 from by ring]
      generalize acc * 10 ^ (natDigsF fuel (n / 10)).length = A
      omega

theorem parseDigits_natDigs (n : Nat) (rest : List Char) (h : headNd rest) :
    parseDigits (natDigs n ++ rest) 0 = (n, rest) := by
  have hlt : n < 10 ^ (n + 1) :=
    lt_of_lt_of_le (Nat.lt_pow_self (by omega) n)
      (Nat.pow_le_pow_right (by omega) (by omega))
  rw [show natDigs n = natDigsF (n + 1) n from rfl,
    parseDigits_digits_append _ _ _ (fun c hc => natDigsF_digits _ _ _ hc) h,
    foldl_natDigsF _ _ _ hlt]
  simp

theorem emit_head (d : Nat) (v : Json) :
    ∃ c cs, emit d v = c :: cs ∧ startTok c := by
  cases v with
  | null => exact ⟨'n', _, rfl, Or.inl rfl⟩
  | bool b =>
    cases b
    · exact ⟨'f', _, rfl, Or.inr (Or.inr (Or.inl rfl))⟩
    · exact ⟨'t', _, rfl, Or.inr (Or.inl rfl)⟩
  | num n =>
    by_cases hn : n < 0
    · refine ⟨'-', natDigs (-n).toNat, ?_, Or.inr (Or.inr (Or.inr (Or.inr
        (Or.inr (Or.inr (Or.inl rfl))))))⟩
      simp [emit, intDigs, hn]
    · obtain ⟨c, cs, hEq, _, h1, h2⟩ := natDigs_head n.toNat
      refine ⟨c, cs, ?_, Or.inr (Or.inr (Or.inr (Or.inr (Or.inr (Or.inr
        (Or.inr ⟨h1, h2⟩))))))⟩
      simp [emit, intDigs, hn, hEq]
  | str s => exact ⟨'"', _, rfl, Or.inr (Or.inr (Or.inr (Or.inl rfl)))⟩
  | arr xs =>
    cases xs
    · exact ⟨'[', _, rfl, Or.inr (Or.inr (Or.inr (Or.inr (Or.inl rfl))))⟩
    · exact ⟨'[', _, rfl, Or.inr (Or.inr (Or.inr (Or.inr (Or.inl rfl))))⟩
  | obj kvs =>
    cases kvs
    · exact ⟨'\x7b', _, rfl, Or.inr (Or.inr (Or.inr (Or.inr (Or.inr
        (Or.inl rfl)))))⟩
    · exact ⟨'\x7b', _, rfl, Or.inr (Or.inr (Or.inr (Or.inr (Or.inr
        (Or.inl rfl)))))⟩

theorem hexVal_hexDig {n : Nat} (h : n < 16) : hexVal (hexDig n) = some n := by
  have : ∀ m, m < 16 → hexVal (hexDig m) = some m := by decide
  exact this n h

/-- Unfolding lemma for `parseStrBody` on a cons cell. -/
theorem parseStrBody_cons (c : Char) (X : List Char) : parseStrBody (c :: X) =
    (if c = '"' then some ([], X)
     else if c = '\\' then
       match X with
       | [] => none
       | e :: r =>
         if e = 'u' then
           match r with
           | h1 :: h2 :: h3 :: h4 :: r2 =>
             match hex4 h1 h2 h3 h4 with
             | some n =>
               (parseStrBody r2).map (fun p => (Char.ofNat n :: p.1, p.2))
             | none => none
           | _ => none
         else
           match escCode e with
           | some ch => (parseStrBody r).map (fun p => (ch :: p.1, p.2))
           | none => none
     else if c.toNat < 32 then none
     else (parseStrBody X).map (fun p => (c :: p.1, p.2))) := by
  rw [parseStrBody.eq_def]

theorem parseStrBody_escList :
    ∀ cs rest, parseStrBody (escList cs ++ ('"' :: rest)) = some (cs, rest) := by
  intro cs
  induction cs with
  | nil =>
    intro rest
    rw [show escList [] ++ '"' :: rest = '"' :: rest from rfl, parseStrBody_cons]
    simp
  | cons c t ih =>
    intro rest
    show parseStrBody ((escChar c ++ escList t) ++ ('"' :: rest)) = _
    rw [List.append_assoc]
    unfold escChar
    split_ifs with h1 h2 h3 h4 h5 h6 h7 h8 <;>
      simp only [List.cons_append, List.nil_append]
    · rw [h1, parseStrBody_cons]
      simp +decide [escCode, ih rest]
    · rw [h2, parseStrBody_cons]
      simp +decide [escCode, ih rest]
    · rw [h3, parseStrBody_cons]
      simp +decide [escCode, ih rest]
    · rw [h4, parseStrBody_cons]
      simp +decide [escCode, ih rest]
    · rw [h5, parseStrBody_cons]
      simp +decide [escCode, ih rest]
    · rw [h6, parseStrBody_cons]
      simp +decide [escCode, ih rest]
    · rw [h7, parseStrBody_cons]
      simp +decide [escCode, ih rest]
    · have hdiv : c.toNat / 16 < 16 := by omega
      have hmod : c.toNat % 16 < 16 := Nat.mod_lt _ (by omega)
      have hx : hex4 '0' '0' (hexDig (c.toNat / 16)) (hexDig (c.toNat % 16)) =
          some c.toNat := by
        simp [hex4, hexVal_hexDig hdiv, hexVal_hexDig hmod,
          show hexVal '0' = some 0 from rfl]
        omega
      rw [parseStrBody_cons]
      simp +decide [hx, ih rest, char_ofNat_toNat c]
    · rw [parseStrBody_cons, if_neg h1, if_neg h2, if_neg h8, ih rest]
      rfl

/-- Unfolding lemma for `parseVal` at positive fuel. -/
theorem parseVal_succ (fuel : Nat) (input : List Char) :
    parseVal (fuel + 1) input =
    (match skipWs input with
    | [] => none
    | c :: r =>
      if c = 'n' then
        match r with
        | 'u' :: 'l' :: 'l' :: r2 => some (.null, r2)
        | _ => none
      else if c = 't' then
        match r with
        | 'r' :: 'u' :: 'e' :: r2 => some (.bool true, r2)
        | _ => none
      else if c = 'f' then
        match r with
        | 'a' :: 'l' :: 's' :: 'e' :: r2 => some (.bool false, r2)
        | _ => none
      else if c = '"' then
        (parseStrBody r).map (fun p => (.str (String.mk p.1), p.2))
      else if c = '[' then
        let r2 := skipWs r
        if r2.head? = some ']' then some (.arr [], r2.tail)
        else (parseItems fuel r2).map (fun p => (.arr p.1, p.2))
      else if c = '\x7b' then
        let r2 := skipWs r
        if r2.head? = some '\x7d' then some (.obj [], r2.tail)
        else (parseMembers fuel r2).map (fun p => (.obj p.1, p.2))
      else if c = '-' then
        match r with
        | c2 :: r2 =>
          if c2.isDigit then
            let p := parseDigits r2 (c2.toNat - 48)
            some (.num (-(p.1 : Int)), p.2)
          else none
        | [] => none
      else if c.isDigit then
        let p := parseDigits r (c.toNat - 48)
        some (.num ((p.1 : Nat) : Int), p.2)
      else none) := by
  rw [parseVal.eq_def]

/-- Unfolding lemma for `parseItems` at positive fuel. -/
theorem parseItems_succ (fuel : Nat) (input : List Char) :
    parseItems (fuel + 1) input =
    (parseVal fuel input).bind (fun p =>
      match skipWs p.2 with
      | ',' :: r => (parseItems fuel r).map (fun q => (p.1 :: q.1, q.2))
      | ']' :: r => some ([p.1], r)
      | _ => none) := by
  rw [parseItems.eq_def]

/-- Unfolding lemma for `parseMembers` at positive fuel. -/
theorem parseMembers_succ (fuel : Nat) (input : List Char) :
    parseMembers (fuel + 1) input =
    (match skipWs input with
    | '"' :: r =>
      (parseStrBody r).bind (fun kp =>
        match skipWs kp.2 with
        | ':' :: r2 =>
          (parseVal fuel r2).bind (fun vp =>
            match skipWs vp.2 with
            | ',' :: r3 =>
              (parseMembers fuel r3).map
                (fun q => ((String.mk kp.1, vp.1) :: q.1, q.2))
            | '\x7d' :: r3 => some ([(String.mk kp.1, vp.1)], r3)
            | _ => none)
        | _ => none)
    | _ => none) := by
  rw [parseMembers.eq_def]

theorem sizeJ_pos (v : Json) : 1 ≤ sizeJ v := by
  cases v <;> simp [sizeJ]

theorem sizeItemsJ_pos (xs : List Json) : 1 ≤ sizeItemsJ xs := by
  cases xs with
  | nil => simp [sizeItemsJ]
  | cons x xs =>
    have := sizeJ_pos x
    simp [sizeItemsJ]
    omega

theorem sizeMembersJ_pos (kvs : List (String × Json)) : 1 ≤ sizeMembersJ kvs := by
  cases kvs with
  | nil => simp [sizeMembersJ]
  | cons kv kvs =>
    have := sizeJ_pos kv.2
    simp [sizeMembersJ]
    omega

theorem string_mk_data (s : String) : String.mk s.data = s := by
  cases s
  rfl

theorem skipWs_pre_emit (pre : List Char) (d : Nat) (v : Json) (rest : List Char)
    (hpre : ∀ c ∈ pre, isJsonWs c = true) :
    skipWs (pre ++ (emit d v ++ rest)) = emit d v ++ rest := by
  rw [skipWs_ws_append pre _ hpre]
  obtain ⟨c, cs, hEq, hTok⟩ := emit_head d v
  rw [hEq, List.cons_append]
  exact skipWs_cons_not _ (startTok_not_ws hTok)

theorem parse_emit_all : ∀ fuel : Nat,
    (∀ v d pre rest, sizeJ v ≤ fuel → (∀ c ∈ pre, isJsonWs c = true) →
      headNd rest → parseVal fuel (pre ++ (emit d v ++ rest)) = some (v, rest)) ∧
    (∀ x xs d e pre rest, sizeItemsJ (x :: xs) ≤ fuel →
      (∀ c ∈ pre, isJsonWs c = true) →
      parseItems fuel
        (pre ++ (emit d x ++ (emitItems d xs ++ (nlIndent e ++ (']' :: rest))))) =
        some (x :: xs, rest)) ∧
    (∀ kv kvs d e pre rest, sizeMembersJ (kv :: kvs) ≤ fuel →
      (∀ c ∈ pre, isJsonWs c = true) →
      parseMembers fuel
        (pre ++ (emitMember d kv ++ (emitMembers d kvs ++
          (nlIndent e ++ ('\x7d' :: rest))))) =
        some (kv :: kvs, rest)) := by
  intro fuel
  induction fuel with
  | zero =>
    refine ⟨?_, ?_, ?_⟩
    · intro v _ _ _ hsz _ _
      exact absurd hsz (by have := sizeJ_pos v; omega)
    · intro x xs _ _ _ _ hsz _
      exact absurd hsz (by have := sizeItemsJ_pos (x :: xs); omega)
    · intro kv kvs _ _ _ _ hsz _
      exact absurd hsz (by have := sizeMembersJ_pos (kv :: kvs); omega)
  | succ fuel ih =>
    obtain ⟨ihV, ihI, ihM⟩ := ih
    refine ⟨?_, ?_, ?_⟩
    · intro v d pre rest hsz hpre hrest
      rw [parseVal_succ, skipWs_pre_emit pre d v rest hpre]
      cases v with
      | null => simp +decide [emit]
      | bool b => cases b <;> simp +decide [emit]
      | str s =>
        simp +decide [emit, List.cons_append, List.append_assoc,
          parseStrBody_escList s.data rest, string_mk_data]
      | num n =>
        by_cases hn : n < 0
        · obtain ⟨dc, dcs, hD, hDig, h1, h2⟩ := natDigs_head (-n).toNat
          rw [show emit d (.num n) = '-' :: natDigs (-n).toNat from by
            simp [emit, intDigs, hn], hD]
          have hpd : parseDigits (dcs ++ rest) (dc.toNat - 48) =
              ((-n).toNat, rest) := by
            have h0 := parseDigits_natDigs (-n).toNat rest hrest
            rw [hD, List.cons_append] at h0
            simp [parseDigits, hDig] at h0
            exact h0
          simp only [List.cons_append]
          simp +decide [hDig, hpd]
          omega
        · obtain ⟨dc, dcs, hD, hDig, h1, h2⟩ := natDigs_head n.toNat
          rw [show emit d (.num n) = natDigs n.toNat from by
            simp [emit, intDigs, hn], hD]
          have hne : ∀ ch : Char, ch.toNat < 48 ∨ 57 < ch.toNat → dc ≠ ch :=
            fun ch hch => charNe (by omega)
          have hpd : parseDigits (dcs ++ rest) (dc.toNat - 48) =
              (n.toNat, rest) := by
            have h0 := parseDigits_natDigs n.toNat rest hrest
            rw [hD, List.cons_append] at h0
            simp [parseDigits, hDig] at h0
            exact h0
          simp only [List.cons_append]
          simp +decide [hDig, hpd, hne 'n' (by decide), hne 't' (by decide),
            hne 'f' (by decide), hne '"' (by decide), hne '[' (by decide),
            hne '\x7b' (by decide), hne '-' (by decide)]
          omega
      | arr xs =>
        cases xs with
        | nil => simp +decide [emit, skipWs]
        | cons x xs =>
          have hsz' : sizeItemsJ (x :: xs) ≤ fuel := by
            simp [sizeJ] at hsz; omega
          obtain ⟨c0, cs0, hE0, hTok0⟩ := emit_head (d + 1) x
          have hskip := skipWs_pre_emit (nlIndent (d + 1)) (d + 1) x
            (emitItems (d + 1) xs ++ (nlIndent d ++ (']' :: rest)))
            (nlIndent_ws _)
          have hitems := ihI x xs (d + 1) d [] rest hsz' (by simp)
          rw [show emit d (.arr (x :: xs)) ++ rest =
            '[' :: (nlIndent (d + 1) ++ (emit (d + 1) x ++
              (emitItems (d + 1) xs ++ (nlIndent d ++ (']' :: rest)))))
            from by simp [emit, List.append_assoc]]
          simp only [List.nil_append] at hitems
          simp only [hE0, List.cons_append] at hskip hitems
          simp +decide [hskip, hE0, startTok_ne_rbracket hTok0, hitems]
      | obj kvs =>
        cases kvs with
        | nil => simp +decide [emit, skipWs]
        | cons kv kvs =>
          have hsz' : sizeMembersJ (kv :: kvs) ≤ fuel := by
            simp [sizeJ] at hsz; omega
          have hmems := ihM kv kvs (d + 1) d [] rest hsz' (by simp)
          simp only [List.nil_append] at hmems
          rw [show emit d (.obj (kv :: kvs)) ++ rest =
            '\x7b' :: (nlIndent (d + 1) ++ (emitMember (d + 1) kv ++
              (emitMembers (d + 1) kvs ++ (nlIndent d ++ ('\x7d' :: rest)))))
            from by simp [emit, List.append_assoc]]
          obtain ⟨k, v⟩ := kv
          have hMemEq : emitMember (d + 1) (k, v) = '"' :: (escList k.data ++
              (['"', ':', ' '] ++ emit (d + 1) v)) := by
            simp [emitMember, List.append_assoc]
          have hskip : skipWs (nlIndent (d + 1) ++ (emitMember (d + 1) (k, v) ++
              (emitMembers (d + 1) kvs ++ (nlIndent d ++ ('\x7d' :: rest))))) =
              emitMember (d + 1) (k, v) ++ (emitMembers (d + 1) kvs ++
                (nlIndent d ++ ('\x7d' :: rest))) := by
            rw [skipWs_ws_append _ _ (nlIndent_ws _), hMemEq, List.cons_append]
            exact skipWs_cons_not _ (by decide)
          simp only [hMemEq, List.cons_append, List.append_assoc,
            List.nil_append] at hskip hmems
          simp +decide [hskip, hmems, hMemEq]
    · intro x xs d e pre rest hsz hpre
      rw [parseItems_succ]
      have hszx : sizeJ x ≤ fuel := by
        have := sizeItemsJ_pos xs
        simp [sizeItemsJ] at hsz
        omega
      have hnd : headNd (emitItems d xs ++ (nlIndent e ++ (']' :: rest))) := by
        cases xs with
        | nil => simp +decide [emitItems, nlIndent, headNd]
        | cons y ys =>
          rw [show emitItems d (y :: ys) ++ (nlIndent e ++ (']' :: rest)) =
            ',' :: (nlIndent d ++ (emit d y ++ (emitItems d ys ++
              (nlIndent e ++ (']' :: rest))))) from by
            simp [emitItems, List.append_assoc]]
          simp +decide [headNd]
      have hV := ihV x d pre (emitItems d xs ++ (nlIndent e ++ (']' :: rest)))
        hszx hpre hnd
      rw [hV]
      cases xs with
      | nil =>
        have hsw : skipWs (emitItems d ([] : List Json) ++
            (nlIndent e ++ (']' :: rest))) = ']' :: rest := by
          rw [show emitItems d ([] : List Json) ++ (nlIndent e ++ (']' :: rest)) =
            nlIndent e ++ (']' :: rest) from by simp [emitItems],
            skipWs_ws_append _ _ (nlIndent_ws e)]
          exact skipWs_cons_not _ (by decide)
        simp [hsw]
      | cons y ys =>
        have hsz2 : sizeItemsJ (y :: ys) ≤ fuel := by
          have := sizeJ_pos x
          simp [sizeItemsJ] at hsz ⊢
          omega
        have hI := ihI y ys d e (nlIndent d) rest hsz2 (nlIndent_ws d)
        have hsw : skipWs (emitItems d (y :: ys) ++
            (nlIndent e ++ (']' :: rest))) =
            ',' :: (nlIndent d ++ (emit d y ++ (emitItems d ys ++
              (nlIndent e ++ (']' :: rest))))) := by
          rw [show emitItems d (y :: ys) ++ (nlIndent e ++ (']' :: rest)) =
            ',' :: (nlIndent d ++ (emit d y ++ (emitItems d ys ++
              (nlIndent e ++ (']' :: rest))))) from by
            simp [emitItems, List.append_assoc]]
          exact skipWs_cons_not _ (by decide)
        simp [hsw, hI]
    · intro kv kvs d e pre rest hsz hpre
      obtain ⟨k, v⟩ := kv
      rw [parseMembers_succ]
      have hszv : sizeJ v ≤ fuel := by
        have := sizeMembersJ_pos kvs
        simp [sizeMembersJ] at hsz
        omega
      rw [show pre ++ (emitMember d (k, v) ++ (emitMembers d kvs ++
          (nlIndent e ++ ('\x7d' :: rest)))) =
        pre ++ ('"' :: (escList k.data ++ ('"' :: ':' :: ' ' ::
          (emit d v ++ (emitMembers d kvs ++
            (nlIndent e ++ ('\x7d' :: rest))))))) from by
        simp [emitMember, List.append_assoc],
        skipWs_ws_append pre _ hpre, skipWs_cons_not _ (by decide)]
      have hkey := parseStrBody_escList k.data (':' :: ' ' ::
        (emit d v ++ (emitMembers d kvs ++ (nlIndent e ++ ('\x7d' :: rest)))))
      have hvnd : headNd (emitMembers d kvs ++
          (nlIndent e ++ ('\x7d' :: rest))) := by
        cases kvs with
        | nil => simp +decide [emitMembers, nlIndent, headNd]
        | cons kv2 kvs2 =>
          rw [show emitMembers d (kv2 :: kvs2) ++
              (nlIndent e ++ ('\x7d' :: rest)) =
            ',' :: (nlIndent d ++ (emitMember d kv2 ++ (emitMembers d kvs2 ++
              (nlIndent e ++ ('\x7d' :: rest))))) from by
            simp [emitMembers, List.append_assoc]]
          simp +decide [headNd]
      have hV := ihV v d [' ']
        (emitMembers d kvs ++ (nlIndent e ++ ('\x7d' :: rest))) hszv
        (by intro c hc; simp only [List.mem_singleton] at hc; subst hc; decide)
        hvnd
      simp only [List.cons_append, List.nil_append] at hV
      have hsw1 : skipWs (':' :: ' ' :: (emit d v ++ (emitMembers d kvs ++
          (nlIndent e ++ ('\x7d' :: rest))))) =
          ':' :: ' ' :: (emit d v ++ (emitMembers d kvs ++
            (nlIndent e ++ ('\x7d' :: rest)))) :=
        skipWs_cons_not _ (by decide)
      cases kvs with
      | nil =>
        have hsw2 : skipWs (emitMembers d ([] : List (String × Json)) ++
            (nlIndent e ++ ('\x7d' :: rest))) = '\x7d' :: rest := by
          rw [show emitMembers d ([] : List (String × Json)) ++
              (nlIndent e ++ ('\x7d' :: rest)) =
            nlIndent e ++ ('\x7d' :: rest) from by simp [emitMembers],
            skipWs_ws_append _ _ (nlIndent_ws e)]
          exact skipWs_cons_not _ (by decide)
        simp [hkey, hsw1, hV, hsw2, string_mk_data]
      | cons kv2 kvs2 =>
        have hsz2 : sizeMembersJ (kv2 :: kvs2) ≤ fuel := by
          have := sizeJ_pos v
          simp [sizeMembersJ] at hsz ⊢
          omega
        have hM := ihM kv2 kvs2 d e (nlIndent d) rest hsz2 (nlIndent_ws d)
        have hsw2 : skipWs (emitMembers d (kv2 :: kvs2) ++
            (nlIndent e ++ ('\x7d' :: rest))) =
            ',' :: (nlIndent d ++ (emitMember d kv2 ++ (emitMembers d kvs2 ++
              (nlIndent e ++ ('\x7d' :: rest))))) := by
          rw [show emitMembers d (kv2 :: kvs2) ++
              (nlIndent e ++ ('\x7d' :: rest)) =
            ',' :: (nlIndent d ++ (emitMember d kv2 ++ (emitMembers d kvs2 ++
              (nlIndent e ++ ('\x7d' :: rest))))) from by
            simp [emitMembers, List.append_assoc]]
          exact skipWs_cons_not _ (by decide)
        simp [hkey, hsw1, hV, hsw2, hM, string_mk_data]

theorem nlIndent_length (d : Nat) : (nlIndent d).length = 1 + 2 * d := by
  simp [nlIndent]
  omega

theorem emit_len_all : ∀ n : Nat,
    (∀ v, sizeJ v ≤ n → ∀ d, sizeJ v ≤ (emit d v).length + 1) ∧
    (∀ xs, sizeItemsJ xs ≤ n → ∀ d,
      sizeItemsJ xs ≤ (emitItems d xs).length + 1) ∧
    (∀ kvs, sizeMembersJ kvs ≤ n → ∀ d,
      sizeMembersJ kvs ≤ (emitMembers d kvs).length + 1) := by
  intro n
  induction n with
  | zero =>
    refine ⟨?_, ?_, ?_⟩
    · intro v hsz
      exact absurd hsz (by have := sizeJ_pos v; omega)
    · intro xs hsz
      exact absurd hsz (by have := sizeItemsJ_pos xs; omega)
    · intro kvs hsz
      exact absurd hsz (by have := sizeMembersJ_pos kvs; omega)
  | succ n ih =>
    obtain ⟨ihV, ihI, ihM⟩ := ih
    refine ⟨?_, ?_, ?_⟩
    · intro v hsz d
      cases v with
      | null => simp [sizeJ, emit]
      | bool b => cases b <;> simp [sizeJ, emit]
      | num m => simp [sizeJ]
      | str s => simp [sizeJ]
      | arr xs =>
        cases xs with
        | nil => simp [sizeJ, sizeItemsJ, emit]
        | cons x xs =>
          have h1 : sizeJ x ≤ n := by
            have := sizeItemsJ_pos xs
            simp [sizeJ, sizeItemsJ] at hsz
            omega
          have h2 : sizeItemsJ xs ≤ n := by
            have := sizeJ_pos x
            simp [sizeJ, sizeItemsJ] at hsz
            omega
          have hx := ihV x h1 (d + 1)
          have hxs := ihI xs h2 (d + 1)
          simp [sizeJ, sizeItemsJ, emit, nlIndent_length,
            List.length_append] at hx hxs ⊢
          omega
      | obj kvs =>
        cases kvs with
        | nil => simp [sizeJ, sizeMembersJ, emit]
        | cons kv kvs =>
          have h1 : sizeJ kv.2 ≤ n := by
            have := sizeMembersJ_pos kvs
            simp [sizeJ, sizeMembersJ] at hsz
            omega
          have h2 : sizeMembersJ kvs ≤ n := by
            have := sizeJ_pos kv.2
            simp [sizeJ, sizeMembersJ] at hsz
            omega
          have hv := ihV kv.2 h1 (d + 1)
          have hkvs := ihM kvs h2 (d + 1)
          obtain ⟨k, v⟩ := kv
          simp [sizeJ, sizeMembersJ, emit, emitMember, nlIndent_length,
            List.length_append] at hv hkvs ⊢
          omega
    · intro xs hsz d
      cases xs with
      | nil => simp [sizeItemsJ, emitItems]
      | cons y ys =>
        have h1 : sizeJ y ≤ n := by
          have := sizeItemsJ_pos ys
          simp [sizeItemsJ] at hsz
          omega
        have h2 : sizeItemsJ ys ≤ n := by
          have := sizeJ_pos y
          simp [sizeItemsJ] at hsz
          omega
        have hy := ihV y h1 d
        have hys := ihI ys h2 d
        simp [sizeItemsJ, emitItems, nlIndent_length,
          List.length_append] at hy hys ⊢
        omega
    · intro kvs hsz d
      cases kvs with
      | nil => simp [sizeMembersJ, emitMembers]
      | cons kv kvs =>
        have h1 : sizeJ kv.2 ≤ n := by
          have := sizeMembersJ_pos kvs
          simp [sizeMembersJ] at hsz
          omega
        have h2 : sizeMembersJ kvs ≤ n := by
          have := sizeJ_pos kv.2
          simp [sizeMembersJ] at hsz
          omega
        have hv := ihV kv.2 h1 d
        have hkvs := ihM kvs h2 d
        obtain ⟨k, v⟩ := kv
        simp [sizeMembersJ, emitMembers, emitMember, nlIndent_length,
          List.length_append] at hv hkvs ⊢
        omega

/-- `JSON.parse` inverts `JSON.stringify(v, null, 2)`: the document store
round-trips every value it writes. -/
theorem parse_stringify2 (v : Json) : parseJson (stringify2 v) = some v := by
  have hlen : sizeJ v ≤ (emit 0 v).length + 1 :=
    (emit_len_all (sizeJ v)).1 v le_rfl 0
  have h := (parse_emit_all ((emit 0 v).length + 1)).1 v 0 [] [] hlen
    (by simp) trivial
  simp only [List.nil_append, List.append_nil] at h
  unfold parseJson stringify2
  rw [show (String.mk (emit 0 v)).data = emit 0 v from rfl, h]
  rfl


/-! ### Document store (`app/lib/data.ts` and the collection routes) -/

/-- State of one backing JSON file under `app/data`. -/
inductive FileState where
  | absent : FileState
  | present (content : String) : FileState
  | ioError : FileState

/-- Read failures that `readJsonFile` re-throws (everything except ENOENT). -/
inductive ReadErr where
  | parseError : ReadErr
  | ioError : ReadErr

/-- `readJsonFile` from `app/lib/data.ts`: a missing file (ENOENT) yields the
empty array; any other failure (I/O error, `JSON.parse` SyntaxError) is
re-thrown to the caller. -/
def readJsonFile (f : FileState) : Except ReadErr Json :=
  match f with
  | .absent => .ok (.arr [])
  | .ioError => .error .ioError
  | .present s =>
    match parseJson s with
    | some v => .ok v
    | none => .error .parseError

/-- `getSubstations` reads the substations file. -/
def getSubstations (f : FileState) : Except ReadErr Json := readJsonFile f

/-- `getComponentPolygons` reads the polygons file. -/
def getComponentPolygons (f : FileState) : Except ReadErr Json := readJsonFile f

/-- `writeSubstations`: overwrite the file with `JSON.stringify(data, null, 2)`. -/
def writeSubstations (data : Json) : FileState := .present (stringify2 data)

/-- `writeComponentPolygons`: same serialization, polygons file. -/
def writeComponentPolygons (data : Json) : FileState := .present (stringify2 data)

/-- An HTTP response of the collection routes (`NextResponse.json(body)`). -/
structure DocResponse where
  status : Nat
  body : Json

/-- `GET /api/substations`. -/
def substationsGET (f : FileState) : DocResponse :=
  match getSubstations f with
  | .ok v => ⟨200, v⟩
  | .error _ => ⟨500, .obj [("message", .str "Error reading substations file")]⟩

/-- `POST /api/substations`: parse the request body (failure throws into the
catch), write the whole value; `writeOk` models whether the filesystem write
succeeds. -/
def substationsPOST (f : FileState) (writeOk : Bool) (body : String) :
    FileState × DocResponse :=
  match parseJson body with
  | none =>
    (f, ⟨500, .obj [("message", .str "Error writing substations file")]⟩)
  | some v =>
    if writeOk then
      (writeSubstations v,
        ⟨200, .obj [("message", .str "Substations updated successfully")]⟩)
    else (f, ⟨500, .obj [("message", .str "Error writing substations file")]⟩)

/-- `GET /api/polygons`. -/
def polygonsGET (f : FileState) : DocResponse :=
  match getComponentPolygons f with
  | .ok v => ⟨200, v⟩
  | .error _ => ⟨500, .obj [("message", .str "Error reading polygons file")]⟩

/-- `POST /api/polygons`. -/
def polygonsPOST (f : FileState) (writeOk : Bool) (body : String) :
    FileState × DocResponse :=
  match parseJson body with
  | none => (f, ⟨500, .obj [("message", .str "Error writing polygons file")]⟩)
  | some v =>
    if writeOk then
      (writeComponentPolygons v,
        ⟨200, .obj [("message", .str "Polygons updated successfully")]⟩)
    else (f, ⟨500, .obj [("message", .str "Error writing polygons file")]⟩)

/-! ### Tile resolver (`app/api/tiles/[...all]/route.ts`) -/

/-- `path.join(process.cwd(), 'public', 'tiles')`, as path segments relative
to the working directory. -/
def TILE_BASE_PATH : List String := ["public", "tiles"]

def CONVERT_Y_TO_TMS : Bool := true

/-- JavaScript `ToInt32`. -/
def jsToInt32 (n : Int) : Int :=
  let m := n % 4294967296
  if m < 2147483648 then m else m - 4294967296

/-- JavaScript `ToUint32`. -/
def jsToUint32 (n : Int) : Int := n % 4294967296

/-- JavaScript `a << b`: 32-bit shift, count taken mod 32. -/
def jsShl32 (a b : Int) : Int :=
  jsToInt32 (jsToInt32 a * 2 ^ ((jsToUint32 b) % 32).toNat)

/-- The resolver row transform `(1 << z) - 1 - y` with JavaScript shift
semantics. -/
def tmsY (z y : Int) : Int := jsShl32 1 z - 1 - y

/-- `parseInt(s, 10)`: optional sign then leading decimal digits; `none`
models `NaN`.  (The hex prefix and huge-number rounding of the real
`parseInt` do not arise for tile coordinates.) -/
def jsParseInt (s : String) : Option Int :=
  match skipWs s.data with
  | '-' :: c :: rest =>
    if c.isDigit then
      some (-(((parseDigits rest (c.toNat - 48)).1 : Nat) : Int))
    else none
  | '+' :: c :: rest =>
    if c.isDigit then some ((parseDigits rest (c.toNat - 48)).1 : Nat)
    else none
  | c :: rest =>
    if c.isDigit then some ((parseDigits rest (c.toNat - 48)).1 : Nat)
    else none
  | [] => none

/-- Prefix of `cs` before its last `'.'` (helper for `parseName`). -/
def beforeLastDot : List Char → List Char
  | [] => []
  | c :: cs => if cs.contains '.' then c :: beforeLastDot cs else []

/-- `path.parse(p).name`: the base name without its extension; a leading dot
does not start an extension. -/
def parseName (s : String) : String :=
  match s.data with
  | [] => s
  | c :: rest =>
    if rest.contains '.' then String.mk (c :: beforeLastDot rest) else s

/-- `String(n)` for the value interpolated into the tile path; `NaN` prints
as `"NaN"`. -/
def numToStr : Option Int → String
  | none => "NaN"
  | some n =>
    if n < 0 then String.mk ('-' :: natDigs (-n).toNat)
    else String.mk (natDigs n.toNat)

/-- Result of `fs.readFileSync` on a tile path. -/
inductive TileRead where
  | found (bytes : List Nat) : TileRead
  | enoent : TileRead
  | ioError (code : String) : TileRead

/-- The tile directory's state: what reading each path yields. -/
def TileFS : Type := List String → TileRead

/-- Body of a tile route response. -/
inductive TileBody where
  | text (s : String) : TileBody
  | image (bytes : List Nat) : TileBody

structure TileResponse where
  status : Nat
  body : TileBody

/-- The file path the tile route reads for a syntactically valid request:
`TILE_BASE_PATH/{fullId}/{zStr}/{xStr}/{yToUse}.png` where
`yToUse = (1 << z) - 1 - y` (NaN propagates from `parseInt` through the
subtraction). -/
def tileLookupPath (pathSegments : List String) : Option (List String) :=
  if pathSegments.length ≠ 4 then none
  else if TILE_BASE_PATH = [] then none
  else
    match pathSegments with
    | [fullId, zStr, xStr, yPng] =>
      let yStr := parseName yPng
      let z := jsParseInt zStr
      let y := jsParseInt yStr
      let yToUse : Option Int :=
        if CONVERT_Y_TO_TMS then y.map (fun yv => jsShl32 1 (z.getD 0) - 1 - yv)
        else y
      some (TILE_BASE_PATH ++ [fullId, zStr, xStr, numToStr yToUse ++ ".png"])
    | _ => none

/-- `GET /api/tiles/[...all]`: reject non-4-segment paths with 400; otherwise
transform the row, read the file, and return the bytes; the catch-all returns
400 "Tile not found on server " for every read failure. -/
def tilesGET (fs : TileFS) (pathSegments : List String) : TileResponse :=
  if pathSegments.length ≠ 4 then
    ⟨400,
      .text "Invalid tile URL format. Expected /api/tiles/{id}/{z}/{x}/{y}.png"⟩
  else if TILE_BASE_PATH = [] then
    ⟨500, .text "Tile storage path is not found or configured correctly."⟩
  else
    match tileLookupPath pathSegments with
    | some p =>
      match fs p with
      | .found bytes => ⟨200, .image bytes⟩
      | .enoent => ⟨400, .text "Tile not found on server "⟩
      | .ioError _ => ⟨400, .text "Tile not found on server "⟩
    | none => ⟨400, .text "Tile not found on server "⟩

/-! ### Client-side polygon save (`handleSavePolygon`, completed-tab
component) -/

/-- A `ComponentPolygon` record (`app/lib/types.ts`). -/
structure ComponentPolygon where
  id : String
  substation_uuid : Option String
  label : String
  geometry : Json
  created_at : String
  substation_full_id : Option String
  from_osm : Bool
  additional_info : Option String
  annotation_by : Option String

/-- The polygon being edited in the dialog. -/
structure DialogPoly where
  id : String
  geometry : Option Json

/-- The selected substation (fields used by the save path). -/
structure SubstationSel where
  id : String
  full_id : Option String

/-- The component states read by `handleSavePolygon`. -/
structure SaveArgs where
  dialogPolygon : Option DialogPoly
  selectedSubstation : Option SubstationSel
  selectedComponent : String
  dialogAdditionalInfo : String
  annotatorName : String

/-- JavaScript string whitespace for `trim` (the characters arising here). -/
def isTrimWs (c : Char) : Bool :=
  c = ' ' || c = '\t' || c = '\n' || c = '\x0d' || c = '\x0b' || c = '\x0c'

/-- JavaScript `s.trim()`: strip leading and trailing whitespace. -/
def jsTrim (s : String) : String :=
  String.mk (((s.data.dropWhile isTrimWs).reverse.dropWhile isTrimWs).reverse)

/-- JavaScript `s || null` on an optional string: empty string is falsy. -/
def presentStr : Option String → Option String
  | some s => if s = "" then none else some s
  | none => none

inductive SaveOutcome where
  | noSelection : SaveOutcome
  | componentRequired : SaveOutcome
  | additionalInfoRequired : SaveOutcome
  | userNameMissing : SaveOutcome
  | geometryMissing : SaveOutcome
  | saved (p : ComponentPolygon) : SaveOutcome
  | failed : SaveOutcome

/-- `handleSavePolygon`: the guard chain runs before any fetch; only the
final branch reads the collection and posts the new list.  `world` is the
persisted polygon collection as the `/api/polygons` routes expose it;
`freshId` models `uuidv4()`, `nowIso` models `new Date().toISOString()`,
and `postOk` models whether the POST succeeds. -/
def handleSavePolygon (args : SaveArgs) (freshId nowIso : String)
    (postOk : Bool) (world : List ComponentPolygon) :
    List ComponentPolygon × SaveOutcome :=
  match args.dialogPolygon, args.selectedSubstation with
  | none, _ => (world, .noSelection)
  | some _, none => (world, .noSelection)
  | some poly, some sub =>
    if args.selectedComponent = "" then (world, .componentRequired)
    else if args.selectedComponent = "Other" ∧
        jsTrim args.dialogAdditionalInfo = "" then
      (world, .additionalInfoRequired)
    else if args.annotatorName = "" then (world, .userNameMissing)
    else
      match poly.geometry with
      | none => (world, .geometryMissing)
      | some geom =>
        let isTemp := poly.id.startsWith "temp-"
        if isTemp then
          let saved : ComponentPolygon :=
            { id := freshId
              substation_uuid := some sub.id
              label := args.selectedComponent
              geometry := geom
              created_at := nowIso
              substation_full_id := presentStr sub.full_id
              from_osm := false
              additional_info := presentStr (some (jsTrim args.dialogAdditionalInfo))
              annotation_by := some args.annotatorName }
          if postOk then (world ++ [saved], .saved saved) else (world, .failed)
        else
          match world.findIdx? (fun p => p.id = poly.id) with
          | none => (world, .failed)
          | some i =>
            match world[i]? with
            | none => (world, .failed)
            | some old =>
              let saved : ComponentPolygon :=
                { old with
                  label := args.selectedComponent
                  additional_info :=
                    presentStr (some (jsTrim args.dialogAdditionalInfo))
                  annotation_by := some args.annotatorName }
              if postOk then (world.set i saved, .saved saved)
              else (world, .failed)


/-! ### Supporting lemmas for the claims -/

theorem jsShl32_one_small {z : Int} (h0 : 0 ≤ z) (h30 : z ≤ 30) :
    jsShl32 1 z = 2 ^ z.toNat := by
  unfold jsShl32 jsToInt32 jsToUint32
  have hz1 : z % 4294967296 = z := Int.emod_eq_of_lt h0 (by omega)
  have hz2 : z % 32 = z := Int.emod_eq_of_lt h0 (by omega)
  rw [hz1, hz2]
  have hle : (2:Int) ^ z.toNat ≤ 2 ^ 30 := by
    apply pow_le_pow_right₀ (by norm_num)
    omega
  have hpos : (0:Int) < 2 ^ z.toNat := by positivity
  norm_num
  have h2 : ((2:Int) ^ z.toNat) % 4294967296 = 2 ^ z.toNat :=
    Int.emod_eq_of_lt (by omega) (by norm_num at hle ⊢; omega)
  rw [h2, if_pos (by norm_num at hle ⊢; omega)]

/-- For a request whose `z` and `y` components parse as integers, the tile
route always proceeds to a lookup whose vertical component is the rendered
value of `(1 << z) - 1 - y`. -/
theorem tileLookupPath_eval (fullId zStr xStr yPng : String) (z y : Int)
    (hz : jsParseInt zStr = some z) (hy : jsParseInt (parseName yPng) = some y) :
    tileLookupPath [fullId, zStr, xStr, yPng] =
      some (TILE_BASE_PATH ++
        [fullId, zStr, xStr, numToStr (some (tmsY z y)) ++ ".png"]) := by
  unfold tileLookupPath
  simp [hz, hy, CONVERT_Y_TO_TMS, tmsY, TILE_BASE_PATH]

theorem tileLookupPath_length {segs : List String} {p : List String}
    (h : tileLookupPath segs = some p) : segs.length = 4 := by
  by_contra hne
  simp [tileLookupPath, hne] at h


/-! ### Claim theorems -/

/-- C1 counterexample: the claim quantifies over every zoom `z ≥ 0`, but at
`z = 31`, `y = 0` the resolver's transform `(1 << z) - 1 - y` is the 32-bit
wrapped value `-2147483649`, not `2^31 - 1 - 0 = 2147483647`, and the stored
vertical path component it produces is `"-2147483649.png"`. -/
theorem c1_counterexample :
    tmsY 31 0 ≠ 2 ^ (31:Int).toNat - 1 - 0 ∧
    tileLookupPath ["sub1", "31", "0", "0.png"] =
      some ["public", "tiles", "sub1", "31", "0", "-2147483649.png"] := by
  exact ⟨by decide, rfl⟩

/-- C1 (amended): for zooms `0 ≤ z ≤ 30` (where the 32-bit shift equals
`2^z`) and rows `0 ≤ y < 2^z`, the resolver transform equals `2^z - 1 - y`,
is involutive, and is applied exactly once per request, its result being the
vertical path component of the stored-tile location. -/
theorem c1_tms_involution_applied_once :
    ∀ z y : Int, 0 ≤ z → z ≤ 30 → 0 ≤ y → y < 2 ^ z.toNat →
      tmsY z y = 2 ^ z.toNat - 1 - y ∧
      tmsY z (tmsY z y) = y ∧
      (∀ fullId zStr xStr yPng,
        jsParseInt zStr = some z → jsParseInt (parseName yPng) = some y →
        tileLookupPath [fullId, zStr, xStr, yPng] =
          some (TILE_BASE_PATH ++
            [fullId, zStr, xStr, numToStr (some (tmsY z y)) ++ ".png"])) := by
  intro z y h0 h30 hy0 hylt
  have hshl := jsShl32_one_small h0 h30
  have heq : tmsY z y = 2 ^ z.toNat - 1 - y := by
    unfold tmsY
    rw [hshl]
  refine ⟨heq, ?_, ?_⟩
  · rw [heq]
    unfold tmsY
    rw [hshl]
    omega
  · intro fullId zStr xStr yPng hz hyp
    exact tileLookupPath_eval fullId zStr xStr yPng z y hz hyp

/-- Witness for C1 at `z = 3`, `y = 7`: the transform yields 0, is
involutive, and request `sub1/3/2/7.png` reads `public/tiles/sub1/3/2/0.png`. -/
theorem c1_witness :
    tmsY 3 7 = 2 ^ (3:Int).toNat - 1 - 7 ∧
    tmsY 3 (tmsY 3 7) = 7 ∧
    tileLookupPath ["sub1", "3", "2", "7.png"] =
      some (TILE_BASE_PATH ++
        ["sub1", "3", "2", numToStr (some (tmsY 3 7)) ++ ".png"]) := by
  obtain ⟨h1, h2, h3⟩ := c1_tms_involution_applied_once 3 7
    (by norm_num) (by norm_num) (by norm_num) (by decide)
  exact ⟨h1, h2, h3 "sub1" "3" "2" "7.png" rfl rfl⟩

/-- C2: the request `sub1/3/2/7.png` resolves to stored path
`sub1/3/2/0.png` under the tile base, a tile stored there is served with
status 200, and the table values `tms(0,0) = 0`, `tms(0,3) = 7`,
`tms(7,3) = 0` hold. -/
theorem c2_tile_path_scenario :
    tileLookupPath ["sub1", "3", "2", "7.png"] =
      some (TILE_BASE_PATH ++ ["sub1", "3", "2", "0.png"]) ∧
    tilesGET
      (fun p => if p = TILE_BASE_PATH ++ ["sub1", "3", "2", "0.png"]
        then .found [137, 80, 78, 71] else .enoent)
      ["sub1", "3", "2", "7.png"] = ⟨200, .image [137, 80, 78, 71]⟩ ∧
    tmsY 0 0 = 0 ∧ tmsY 3 0 = 7 ∧ tmsY 3 7 = 0 := by
  exact ⟨rfl, rfl, rfl, rfl, rfl⟩

/-- C9 counterexample: a request with the absurd zoom `z = 32` is neither
rejected nor clamped: the resolver computes `1 << 32 = 1` (the shift count
wraps mod 32), looks up row `-5` for `y = 5`, and answers with the ordinary
catch-all rather than any validation error. -/
theorem c9_counterexample :
    jsShl32 1 32 = 1 ∧
    jsShl32 1 32 ≠ 2 ^ 32 ∧
    tileLookupPath ["sub1", "32", "0", "5.png"] =
      some ["public", "tiles", "sub1", "32", "0", "-5.png"] ∧
    tilesGET (fun _ => .enoent) ["sub1", "32", "0", "5.png"] =
      ⟨400, .text "Tile not found on server "⟩ := by
  exact ⟨rfl, by decide, rfl, rfl⟩

/-- C9 (amended): the route performs no zoom validation at all — every
4-segment request with parseable `z` and `y` proceeds to a file lookup whose
row is computed with the 32-bit wrapping shift, which deviates from `2^z`
from `z = 31` on (`1 << 31 = -2^31`, `1 << 32 = 1`). -/
theorem c9_no_zoom_guard :
    (∀ (fullId zStr xStr yPng : String) (z y : Int),
      jsParseInt zStr = some z → jsParseInt (parseName yPng) = some y →
      tileLookupPath [fullId, zStr, xStr, yPng] =
        some (TILE_BASE_PATH ++
          [fullId, zStr, xStr, numToStr (some (tmsY z y)) ++ ".png"])) ∧
    jsShl32 1 31 = -2147483648 ∧ jsShl32 1 32 = 1 := by
  refine ⟨?_, rfl, rfl⟩
  intro fullId zStr xStr yPng z y hz hy
  exact tileLookupPath_eval fullId zStr xStr yPng z y hz hy

/-- Witness for C9 at the absurd zoom `z = 32`, `y = 5`: the lookup happens
(row `-5`), nothing is rejected or clamped. -/
theorem c9_witness :
    tileLookupPath ["sub1", "32", "0", "5.png"] =
      some (TILE_BASE_PATH ++
        ["sub1", "32", "0", numToStr (some (tmsY 32 5)) ++ ".png"]) ∧
    jsShl32 1 32 = 1 := by
  exact ⟨(c9_no_zoom_guard).1 "sub1" "32" "0" "5.png" 32 5 rfl rfl,
    (c9_no_zoom_guard).2.2⟩


/-- C3: `readAll` on a missing backing file returns the empty sequence (and
the GET route serves it with 200), while every other read failure — malformed
stored content or an I/O error — propagates and is surfaced as HTTP 500. -/
theorem c3_read_missing_is_empty_other_errors_500 :
    readJsonFile .absent = .ok (.arr []) ∧
    getSubstations .absent = .ok (.arr []) ∧
    getComponentPolygons .absent = .ok (.arr []) ∧
    substationsGET .absent = ⟨200, .arr []⟩ ∧
    polygonsGET .absent = ⟨200, .arr []⟩ ∧
    (∀ s, parseJson s = none →
      substationsGET (.present s) =
        ⟨500, .obj [("message", .str "Error reading substations file")]⟩ ∧
      polygonsGET (.present s) =
        ⟨500, .obj [("message", .str "Error reading polygons file")]⟩) ∧
    substationsGET .ioError =
      ⟨500, .obj [("message", .str "Error reading substations file")]⟩ := by
  refine ⟨rfl, rfl, rfl, rfl, rfl, ?_, rfl⟩
  intro s hs
  constructor
  · unfold substationsGET getSubstations readJsonFile
    dsimp only
    rw [hs]
  · unfold polygonsGET getComponentPolygons readJsonFile
    dsimp only
    rw [hs]

/-- Witness for C3: the stored content `"garbage"` is not valid JSON and the
GET routes answer 500 for it. -/
theorem c3_witness :
    parseJson "garbage" = none ∧
    substationsGET (.present "garbage") =
      ⟨500, .obj [("message", .str "Error reading substations file")]⟩ := by
  exact ⟨rfl, (c3_read_missing_is_empty_other_errors_500.2.2.2.2.2.1
    "garbage" rfl).1⟩

/-- C4: `writeAll` immediately followed by `readAll` returns exactly the
written record sequence, for every sequence including the empty one
(round-trip fidelity of `JSON.parse` after `JSON.stringify(·, null, 2)`). -/
theorem c4_write_read_roundtrip :
    ∀ R : List Json,
      getSubstations (writeSubstations (.arr R)) = .ok (.arr R) ∧
      getComponentPolygons (writeComponentPolygons (.arr R)) = .ok (.arr R) := by
  intro R
  constructor
  · unfold getSubstations writeSubstations readJsonFile
    dsimp only
    rw [parse_stringify2]
  · unfold getComponentPolygons writeComponentPolygons readJsonFile
    dsimp only
    rw [parse_stringify2]

/-- C5: saving a polygon labelled "Other" with empty (all-whitespace)
additional info is rejected by `handleSavePolygon`'s guard before any fetch
or write happens: the persisted collection is returned unchanged. -/
theorem c5_other_empty_info_rejected_before_write :
    ∀ (args : SaveArgs) (freshId nowIso : String) (postOk : Bool)
      (world : List ComponentPolygon) (p : DialogPoly) (s : SubstationSel),
      args.dialogPolygon = some p → args.selectedSubstation = some s →
      args.selectedComponent = "Other" → jsTrim args.dialogAdditionalInfo = "" →
      handleSavePolygon args freshId nowIso postOk world =
        (world, .additionalInfoRequired) := by
  intro args freshId nowIso postOk world p s hp hs hc hi
  unfold handleSavePolygon
  rw [hp, hs]
  simp +decide [hc, hi]

/-- Witness for C5: a concrete dialog state labelled "Other" with empty
additional info leaves a one-element collection untouched. -/
theorem c5_witness :
    handleSavePolygon
      { dialogPolygon := some { id := "temp-1", geometry := some (.arr []) }
        selectedSubstation := some { id := "s1", full_id := some "sub1" }
        selectedComponent := "Other"
        dialogAdditionalInfo := ""
        annotatorName := "ann" }
      "uuid-1" "2024-01-01T00:00:00Z" true
      [{ id := "p0", substation_uuid := none, label := "Power Line",
         geometry := .arr [], created_at := "2024-01-01T00:00:00Z",
         substation_full_id := none, from_osm := true,
         additional_info := none, annotation_by := none }] =
      ([{ id := "p0", substation_uuid := none, label := "Power Line",
          geometry := .arr [], created_at := "2024-01-01T00:00:00Z",
          substation_full_id := none, from_osm := true,
          additional_info := none, annotation_by := none }],
        .additionalInfoRequired) := by
  exact c5_other_empty_info_rejected_before_write _ "uuid-1"
    "2024-01-01T00:00:00Z" true _ _ _ rfl rfl rfl rfl

/-- C6 counterexample: a permissions fault (`EACCES`) on the stored tile
produces the byte-identical 400 "Tile not found on server " response as a
genuinely missing tile, so the statuses do not distinguish StorageFault from
NotFoundTile. -/
theorem c6_counterexample :
    tilesGET (fun _ => .ioError "EACCES") ["sub1", "3", "2", "7.png"] =
      tilesGET (fun _ => .enoent) ["sub1", "3", "2", "7.png"] ∧
    tilesGET (fun _ => .enoent) ["sub1", "3", "2", "7.png"] =
      ⟨400, .text "Tile not found on server "⟩ := by
  exact ⟨rfl, rfl⟩

/-- C6 (amended): a missing tile is answered with the catch-all
400 "Tile not found on server " (not a 5xx), every storage fault on the same
lookup is answered identically — NotFoundTile and StorageFault are therefore
not distinguishable — and MalformedRequest differs from them only in body
text, all three sharing status 400. -/
theorem c6_not_found_equals_fault_response :
    ∀ (fs fs2 : TileFS) (segs p : List String) (code : String),
      tileLookupPath segs = some p →
      fs p = .enoent → fs2 p = .ioError code →
      tilesGET fs segs = ⟨400, .text "Tile not found on server "⟩ ∧
      tilesGET fs2 segs = tilesGET fs segs ∧
      (tilesGET fs segs).status ≠ 500 ∧
      tilesGET fs segs ≠
        ⟨400,
          .text "Invalid tile URL format. Expected /api/tiles/{id}/{z}/{x}/{y}.png"⟩ := by
  intro fs fs2 segs p code hpath hfs hfs2
  have hlen : segs.length = 4 := tileLookupPath_length hpath
  have h1 : tilesGET fs segs = ⟨400, .text "Tile not found on server "⟩ := by
    unfold tilesGET
    rw [if_neg (by omega), if_neg (by decide), hpath]
    dsimp only
    rw [hfs]
  have h2 : tilesGET fs2 segs = ⟨400, .text "Tile not found on server "⟩ := by
    unfold tilesGET
    rw [if_neg (by omega), if_neg (by decide), hpath]
    dsimp only
    rw [hfs2]
  refine ⟨h1, h2.trans h1.symm, ?_, ?_⟩
  · rw [h1]
    decide
  · rw [h1]
    intro hcontra
    have := congrArg TileResponse.body hcontra
    simp at this

/-- Witness for C6: the `sub1/3/2/7.png` request against an empty tile store
and against a permission-broken store. -/
theorem c6_witness :
    tilesGET (fun _ => .enoent) ["sub1", "3", "2", "7.png"] =
      ⟨400, .text "Tile not found on server "⟩ ∧
    tilesGET (fun _ => .ioError "EACCES") ["sub1", "3", "2", "7.png"] =
      tilesGET (fun _ => .enoent) ["sub1", "3", "2", "7.png"] := by
  obtain ⟨h1, h2, _, _⟩ := c6_not_found_equals_fault_response
    (fun _ => .enoent) (fun _ => .ioError "EACCES") ["sub1", "3", "2", "7.png"]
    ["public", "tiles", "sub1", "3", "2", "0.png"] "EACCES" rfl rfl rfl
  exact ⟨h1, h2⟩

/-- C7: every request whose path has other than four segments is rejected as
400 MalformedRequest with the fixed invalid-format body, regardless of
segment content and of the tile store's state, and that response is never the
lookup-miss response. -/
theorem c7_malformed_segment_count :
    ∀ (fs : TileFS) (segs : List String), segs.length ≠ 4 →
      tilesGET fs segs =
        ⟨400,
          .text "Invalid tile URL format. Expected /api/tiles/{id}/{z}/{x}/{y}.png"⟩ ∧
      tilesGET fs segs ≠ ⟨400, .text "Tile not found on server "⟩ := by
  intro fs segs h
  have h1 : tilesGET fs segs =
      ⟨400,
        .text "Invalid tile URL format. Expected /api/tiles/{id}/{z}/{x}/{y}.png"⟩ := by
    unfold tilesGET
    rw [if_pos h]
  refine ⟨h1, ?_⟩
  rw [h1]
  intro hcontra
  have := congrArg TileResponse.body hcontra
  exact absurd (congrArg (fun b => match b with
    | TileBody.text s => s
    | TileBody.image _ => "") this) (by decide)

/-- Witness for C7: 3-segment and 5-segment requests are both rejected with
the invalid-format 400. -/
theorem c7_witness :
    tilesGET (fun _ => .enoent) ["sub1", "3", "2"] =
      ⟨400,
        .text "Invalid tile URL format. Expected /api/tiles/{id}/{z}/{x}/{y}.png"⟩ ∧
    tilesGET (fun _ => .enoent) ["sub1", "3", "2", "7", "8.png"] =
      ⟨400,
        .text "Invalid tile URL format. Expected /api/tiles/{id}/{z}/{x}/{y}.png"⟩ := by
  exact ⟨(c7_malformed_segment_count (fun _ => .enoent) ["sub1", "3", "2"]
      (by decide)).1,
    (c7_malformed_segment_count (fun _ => .enoent) ["sub1", "3", "2", "7", "8.png"]
      (by decide)).1⟩

/-- C10: the collection POST routes return 500 exactly when the body is not
parseable JSON or the write fails; any parseable body — array or not — is
persisted wholesale with 200 and a subsequent GET returns the same value;
no shape validation is performed. -/
theorem c10_post_no_validation :
    ∀ (f : FileState) (writeOk : Bool) (body : String),
      (((substationsPOST f writeOk body).2.status = 500) ↔
        (parseJson body = none ∨ writeOk = false)) ∧
      (((polygonsPOST f writeOk body).2.status = 500) ↔
        (parseJson body = none ∨ writeOk = false)) ∧
      (∀ v, parseJson body = some v → writeOk = true →
        substationsPOST f writeOk body =
          (.present (stringify2 v),
            ⟨200, .obj [("message", .str "Substations updated successfully")]⟩) ∧
        polygonsPOST f writeOk body =
          (.present (stringify2 v),
            ⟨200, .obj [("message", .str "Polygons updated successfully")]⟩) ∧
        substationsGET (.present (stringify2 v)) = ⟨200, v⟩ ∧
        polygonsGET (.present (stringify2 v)) = ⟨200, v⟩) := by
  intro f writeOk body
  refine ⟨?_, ?_, ?_⟩
  · unfold substationsPOST
    cases hp : parseJson body with
    | none => simp
    | some v =>
      cases writeOk with
      | true => simp
      | false => simp
  · unfold polygonsPOST
    cases hp : parseJson body with
    | none => simp
    | some v =>
      cases writeOk with
      | true => simp
      | false => simp
  · intro v hv hw
    subst hw
    refine ⟨?_, ?_, ?_, ?_⟩
    · unfold substationsPOST
      rw [hv]
      rfl
    · unfold polygonsPOST
      rw [hv]
      rfl
    · unfold substationsGET getSubstations readJsonFile
      dsimp only
      rw [parse_stringify2]
    · unfold polygonsGET getComponentPolygons readJsonFile
      dsimp only
      rw [parse_stringify2]

/-- Witness for C10: the non-array body `"5"` is accepted, persisted
verbatim, and returned as-is by the subsequent GET. -/
theorem c10_witness :
    parseJson "5" = some (.num 5) ∧
    substationsPOST .absent true "5" =
      (.present (stringify2 (.num 5)),
        ⟨200, .obj [("message", .str "Substations updated successfully")]⟩) ∧
    substationsGET (.present (stringify2 (.num 5))) = ⟨200, .num 5⟩ := by
  obtain ⟨h1, h2, h3, h4⟩ :=
    (c10_post_no_validation .absent true "5").2.2 (.num 5) rfl rfl
  exact ⟨rfl, h1, h3⟩

end Spec2Proof
